import Mathlib

/-!
# Verification of the `crypto` core of the onepassword vault reader

Shallow embedding of `src/crypto/crypto.go`. Byte sequences are modelled as
`List Nat` (each element a byte value), machine integers as `Nat`/`Int` with
explicit `% 2^64` where overflow matters, and Go's three-way outcome
(value / error / panic) as the `GoResult` type below.

The cryptographic primitives used by the code (HMAC-SHA-256, SHA-512,
PBKDF2-HMAC-SHA-512, AES-256-CBC decryption) live in the Go standard library
and `golang.org/x/crypto`, outside this repository; the framing and parsing
logic under verification does not depend on their internals, only on the
byte-lengths of their outputs. They are therefore abstracted as a `Prims`
parameter, and theorems carry the (true of the real primitives) hypotheses
that HMAC-SHA-256 tags are 32 bytes, SHA-512 digests and PBKDF2 outputs with
`keyLen = 64` are 64 bytes, and CBC decryption is length-preserving.
-/

set_option maxRecDepth 100000

namespace OnePassword

/-- The sentinel error values declared in `crypto.go`, plus the foreign
errors that Go standard-library calls inside this package can surface:
`io.EOF` and `io.ErrUnexpectedEOF` (from `bytes.Reader.Read`,
`bytes.Buffer.Read` and `binary.Read`), and `aes.KeySizeError` (from
`aes.NewCipher` when the key is not 16, 24 or 32 bytes). -/
inductive GoErr where
  | incompleteHeader
  | incompleteCiphertext
  | incompleteIV
  | incompleteMagic
  | incompleteMAC
  | incorrectMAC
  | invalidMagic
  | ioEOF
  | ioUnexpectedEOF
  | aesKeySize (n : Nat)
deriving DecidableEq, Repr

/-- Outcome of a Go function call: a value, a returned `error`, or a
run-time panic (Go slice-bounds violations and
`cipher.BlockMode.CryptBlocks` on input that is not a whole number of
blocks panic rather than return an error). -/
inductive GoResult (α : Type) where
  | ok (v : α)
  | err (e : GoErr)
  | panicked
deriving DecidableEq, Repr

/-- Sequencing of Go calls with the usual `if err != nil { return nil, err }`
pattern; panics propagate. -/
def GoResult.bind {α β : Type} : GoResult α → (α → GoResult β) → GoResult β
  | .ok v, f => f v
  | .err e, _ => .err e
  | .panicked, _ => .panicked

/-- `KeyPair` from `crypto.go`: an encryption key and a MAC key. -/
structure KeyPair where
  EncKey : List Nat
  MACKey : List Nat
deriving DecidableEq, Repr

/-- The external cryptographic primitives the package calls, abstracted:
`hmacSHA256 key data` is the HMAC-SHA-256 tag, `sha512` the SHA-512 digest,
`pbkdf2SHA512 pass salt nIters` the 64-byte PBKDF2-HMAC-SHA-512 output
(`keyLen = 64` is fixed at the single call site; `x/crypto`'s `pbkdf2.Key`
is total — for `iter ≤ 1` the iteration loop body simply never runs — so it
is modelled as a total function), and `aesCBCDec key iv ct` the AES-CBC
decryption of `ct`. -/
structure Prims where
  hmacSHA256 : List Nat → List Nat → List Nat
  sha512 : List Nat → List Nat
  pbkdf2SHA512 : List Nat → List Nat → Int → List Nat
  aesCBCDec : List Nat → List Nat → List Nat → List Nat

/-- `EncKeySize` constant from `crypto.go`. -/
def EncKeySize : Nat := 32

/-- `MACKeySize` constant from `crypto.go`. -/
def MACKeySize : Nat := 32

/-- `sha256.Size`: the byte length of a SHA-256 digest / HMAC-SHA-256 tag. -/
def sha256Size : Nat := 32

/-- `aes.BlockSize`: the AES block size in bytes. -/
def aesBlockSize : Nat := 16

/-- `OPData01Magic = []byte("opdata01")` — the ASCII bytes of the magic. -/
def OPData01Magic : List Nat := [111, 112, 100, 97, 116, 97, 48, 49]

/-- Go slice expression `l[i:j]`: panics unless `0 ≤ i ≤ j ≤ len(l)`
(for the slices in this package, capacity equals length). -/
def goSlice (l : List Nat) (i j : Nat) : GoResult (List Nat) :=
  if i ≤ j ∧ j ≤ l.length then .ok ((l.drop i).take (j - i)) else .panicked

/-- Little-endian base-256 encoding of `n` in `k` bytes (the layout
`binary.LittleEndian` writes). -/
def natToLE : Nat → Nat → List Nat
  | 0, _ => []
  | k + 1, n => n % 256 :: natToLE k (n / 256)

/-- Little-endian base-256 value of a byte list: what
`binary.Read(r, binary.LittleEndian, &ptLen)` computes from the 8 bytes it
reads. -/
def leBytes : List Nat → Nat
  | [] => 0
  | b :: bs => b + 256 * leBytes bs

/-- `ComputeDerivedKeys` from `crypto.go`:
`data := pbkdf2.Key([]byte(pass), salt, nIters, 64, sha512.New)` followed by
`&KeyPair{data[0:32], data[32:64]}`. The Go function has no error return;
the only non-`ok` outcome would be a slice-bounds panic. -/
def ComputeDerivedKeys (P : Prims) (pass salt : List Nat) (nIters : Int) :
    GoResult KeyPair :=
  let data := P.pbkdf2SHA512 pass salt nIters
  (goSlice data 0 32).bind fun e =>
  (goSlice data 32 64).bind fun m =>
  .ok ⟨e, m⟩

/-- `authenticate` from `crypto.go`: checks `len(blob) < sha256.Size`,
splits off the trailing 32-byte tag, recomputes
`hmac.New(sha256.New, kp.MACKey)` over the prefix and compares with
`hmac.Equal` (byte-wise equality in constant time). -/
def authenticate (P : Prims) (blob : List Nat) (kp : KeyPair) :
    GoResult (List Nat) :=
  if blob.length < sha256Size then .err .incompleteMAC
  else
    let macOff := blob.length - sha256Size
    let data := blob.take macOff
    let dataMAC := blob.drop macOff
    let expectedMAC := P.hmacSHA256 kp.MACKey data
    if dataMAC = expectedMAC then .ok data
    else .err .incorrectMAC

/-- `decrypt` from `crypto.go`.  Go stdlib semantics made explicit:
`bytes.Reader.Read` on an empty reader returns `(0, io.EOF)`, so an empty
blob yields the foreign `io.EOF` error, not `ErrIncompleteIV`; on a
non-empty blob it returns `min(16, len(blob))` bytes with no error, and the
code reports `ErrIncompleteIV` when that is short.  `ioutil.ReadAll` never
fails on a `bytes.Reader`.  `aes.NewCipher` fails with `KeySizeError`
unless the key is 16, 24 or 32 bytes.  `cipher.NewCBCDecrypter` would panic
on an IV that is not 16 bytes (never here: `iv` is `make([]byte, 16)`), and
`CryptBlocks` panics when the ciphertext is not a whole number of blocks. -/
def decrypt (P : Prims) (blob : List Nat) (kp : KeyPair) :
    GoResult (List Nat) :=
  if blob.length = 0 then .err .ioEOF
  else if blob.length < aesBlockSize then .err .incompleteIV
  else
    let iv := blob.take aesBlockSize
    let ciphertext := blob.drop aesBlockSize
    if ciphertext.length < aesBlockSize then .err .incompleteCiphertext
    else if kp.EncKey.length = 16 ∨ kp.EncKey.length = 24 ∨ kp.EncKey.length = 32 then
      if ciphertext.length % aesBlockSize = 0 then
        .ok (P.aesCBCDec kp.EncKey iv ciphertext)
      else .panicked
    else .err (.aesKeySize kp.EncKey.length)

/-- `DecryptOPData01` from `crypto.go`.  After `authenticate`, a
`bytes.Buffer` read of the 8 magic bytes returns `(0, io.EOF)` on an empty
buffer (so the foreign `io.EOF`, not `ErrIncompleteMagic`), a short count
with no error on 1–7 bytes (`ErrIncompleteMagic`), and a mismatch gives
`ErrInvalidMagic`.  `binary.Read` of the `uint64` does an `io.ReadFull` of
8 bytes: an empty remainder gives `io.EOF`, 1–7 bytes give
`io.ErrUnexpectedEOF`.  `padLen := aes.BlockSize - (ptLen % aes.BlockSize)`
in `uint64` arithmetic never wraps since `ptLen % 16 ≤ 15`.  The error from
`ioutil.ReadAll` is discarded by the code (shadowed by the `decrypt` call);
`ReadAll` on a `bytes.Buffer` cannot fail.  The final
`plaintext[padLen:len(plaintext)]` is a Go slice expression. -/
def DecryptOPData01 (P : Prims) (opdata : List Nat) (kp : KeyPair) :
    GoResult (List Nat) :=
  (authenticate P opdata kp).bind fun data =>
  if data.length = 0 then .err .ioEOF
  else if data.length < OPData01Magic.length then .err .incompleteMagic
  else if data.take OPData01Magic.length ≠ OPData01Magic then .err .invalidMagic
  else
    let rest := data.drop OPData01Magic.length
    if rest.length = 0 then .err .ioEOF
    else if rest.length < 8 then .err .ioUnexpectedEOF
    else
      let ptLen := leBytes (rest.take 8)
      let padLen := aesBlockSize - ptLen % aesBlockSize
      let ct := rest.drop 8
      (decrypt P ct kp).bind fun plaintext =>
      goSlice plaintext padLen plaintext.length

/-- `DecryptMasterKeys` from `crypto.go`: `DecryptOPData01`, then
`data := sha512.Sum512(mkData)` (a `[64]byte` array, so the subsequent
`data[0:32]`, `data[32:64]` cannot be out of bounds) split into a new
`KeyPair`. -/
def DecryptMasterKeys (P : Prims) (opdata : List Nat) (derivedKeys : KeyPair) :
    GoResult KeyPair :=
  (DecryptOPData01 P opdata derivedKeys).bind fun mkData =>
  let data := P.sha512 mkData
  .ok ⟨(data.drop 0).take 32, (data.drop 32).take 32⟩

/-- `DecryptItemKey` from `crypto.go`: `authenticate`, `decrypt`, then
`plaintext[0:EncKeySize]` and `plaintext[EncKeySize:EncKeySize+MACKeySize]`
— Go slice expressions on a plain slice, which panic when `plaintext` has
fewer than 64 bytes. -/
def DecryptItemKey (P : Prims) (itemKey : List Nat) (kp : KeyPair) :
    GoResult KeyPair :=
  (authenticate P itemKey kp).bind fun data =>
  (decrypt P data kp).bind fun plaintext =>
  (goSlice plaintext 0 EncKeySize).bind fun e =>
  (goSlice plaintext EncKeySize (EncKeySize + MACKeySize)).bind fun m =>
  .ok ⟨e, m⟩

/-- A concrete instantiation of the abstract primitives used to evaluate
the embedding on closed inputs: constant tags and digests of the correct
lengths, and the identity as the (length-preserving) block cipher. -/
def testPrims : Prims where
  hmacSHA256 := fun _ _ => List.replicate 32 0
  sha512 := fun _ => List.replicate 64 0
  pbkdf2SHA512 := fun _ _ _ => List.replicate 64 0
  aesCBCDec := fun _ _ ct => ct

/-- A KeyPair of two all-zero 32-byte keys, for concrete evaluations. -/
def kp0 : KeyPair := ⟨List.replicate 32 0, List.replicate 32 0⟩


/-! ### Byte-level helper lemmas -/

lemma natToLE_length (k n : Nat) : (natToLE k n).length = k := by
  induction k generalizing n with
  | zero => rfl
  | succ k ih => simp [natToLE, ih]

lemma leBytes_natToLE (k n : Nat) : leBytes (natToLE k n) = n % 256 ^ k := by
  induction k generalizing n with
  | zero => simp [natToLE, leBytes, Nat.mod_one]
  | succ k ih =>
    rw [natToLE, leBytes, ih, pow_succ, mul_comm (256 ^ k) 256, Nat.mod_mul]

lemma drop_take_full (l : List Nat) (i : Nat) :
    (l.drop i).take (l.length - i) = l.drop i := by
  rw [← List.length_drop]
  exact (l.drop i).take_length

/-! ### Behaviour of `authenticate` -/

lemma authenticate_cases (P : Prims) (blob : List Nat) (kp : KeyPair) :
    (blob.length < 32 → authenticate P blob kp = .err .incompleteMAC)
    ∧ (32 ≤ blob.length →
        blob.drop (blob.length - 32) ≠
          P.hmacSHA256 kp.MACKey (blob.take (blob.length - 32)) →
        authenticate P blob kp = .err .incorrectMAC)
    ∧ (32 ≤ blob.length →
        blob.drop (blob.length - 32) =
          P.hmacSHA256 kp.MACKey (blob.take (blob.length - 32)) →
        authenticate P blob kp = .ok (blob.take (blob.length - 32))) := by
  refine ⟨fun h => ?_, fun h hne => ?_, fun h heq => ?_⟩
  · simp [authenticate, sha256Size, h]
  · simp only [authenticate, sha256Size]
    rw [if_neg (by omega), if_neg hne]
  · simp only [authenticate, sha256Size]
    rw [if_neg (by omega), if_pos heq]

lemma authenticate_tag_ok (P : Prims) (kp : KeyPair) (data tag : List Nat)
    (htag : tag.length = 32) (heq : tag = P.hmacSHA256 kp.MACKey data) :
    authenticate P (data ++ tag) kp = .ok data := by
  have hoff : (data ++ tag).length - 32 = data.length := by
    simp [htag]
  have h32 : 32 ≤ (data ++ tag).length := by
    simp [htag]
  have := (authenticate_cases P (data ++ tag) kp).2.2 h32
  rw [hoff, List.take_left, List.drop_left] at this
  exact this (by rw [← heq])

/-! ### Behaviour of `decrypt` -/

lemma decrypt_cases (P : Prims) (blob : List Nat) (kp : KeyPair)
    (hk : kp.EncKey.length = 32) :
    (blob.length = 0 → decrypt P blob kp = .err .ioEOF)
    ∧ (0 < blob.length → blob.length < 16 →
        decrypt P blob kp = .err .incompleteIV)
    ∧ (16 ≤ blob.length → blob.length < 32 →
        decrypt P blob kp = .err .incompleteCiphertext)
    ∧ (32 ≤ blob.length → (blob.length - 16) % 16 ≠ 0 →
        decrypt P blob kp = .panicked)
    ∧ (32 ≤ blob.length → (blob.length - 16) % 16 = 0 →
        decrypt P blob kp =
          .ok (P.aesCBCDec kp.EncKey (blob.take 16) (blob.drop 16))) := by
  have hdl : (blob.drop 16).length = blob.length - 16 := List.length_drop 16 blob
  refine ⟨fun h => ?_, fun h h' => ?_, fun h h' => ?_, fun h h' => ?_, fun h h' => ?_⟩
  · simp [decrypt, h]
  · simp only [decrypt, aesBlockSize]
    rw [if_neg (by omega), if_pos h']
  · simp only [decrypt, aesBlockSize]
    rw [if_neg (by omega), if_neg (by omega), if_pos (by omega)]
  · simp only [decrypt, aesBlockSize]
    rw [if_neg (by omega), if_neg (by omega), if_neg (by omega),
      if_pos (by omega), if_neg (by rw [hdl]; exact h')]
  · simp only [decrypt, aesBlockSize]
    rw [if_neg (by omega), if_neg (by omega), if_neg (by omega),
      if_pos (by omega), if_pos (by rw [hdl]; exact h')]

lemma decrypt_iv_ct (P : Prims) (kp : KeyPair) (iv ct : List Nat)
    (hiv : iv.length = 16) (hct : 16 ≤ ct.length)
    (hmul : ct.length % 16 = 0) (hk : kp.EncKey.length = 32) :
    decrypt P (iv ++ ct) kp = .ok (P.aesCBCDec kp.EncKey iv ct) := by
  have hlen : (iv ++ ct).length = 16 + ct.length := by simp [hiv]
  have := (decrypt_cases P (iv ++ ct) kp hk).2.2.2.2 (by omega)
    (by rw [hlen]; omega)
  rw [List.take_left' hiv, List.drop_left' hiv] at this
  exact this

/-! ### Behaviour of `DecryptOPData01` on a well-formed container -/

lemma GoResult.bind_ok {α β : Type} (v : α) (f : α → GoResult β) :
    GoResult.bind (.ok v) f = f v := rfl

lemma DecryptOPData01_ok (P : Prims) (kp : KeyPair) (ptLen : Nat)
    (iv ct tag : List Nat)
    (hpt : ptLen < 2 ^ 64) (hiv : iv.length = 16) (hct : 16 ≤ ct.length)
    (hmul : ct.length % 16 = 0) (hk : kp.EncKey.length = 32)
    (haes : (P.aesCBCDec kp.EncKey iv ct).length = ct.length)
    (htag : tag.length = 32)
    (heq : tag = P.hmacSHA256 kp.MACKey
      (OPData01Magic ++ (natToLE 8 ptLen ++ (iv ++ ct)))) :
    DecryptOPData01 P ((OPData01Magic ++ (natToLE 8 ptLen ++ (iv ++ ct))) ++ tag) kp
      = .ok ((P.aesCBCDec kp.EncKey iv ct).drop (16 - ptLen % 16)) := by
  have hle : (natToLE 8 ptLen).length = 8 := natToLE_length 8 ptLen
  have hauth := authenticate_tag_ok P kp
    (OPData01Magic ++ (natToLE 8 ptLen ++ (iv ++ ct))) tag htag heq
  have hptv : leBytes ((natToLE 8 ptLen ++ (iv ++ ct)).take 8) = ptLen := by
    rw [List.take_left' hle, leBytes_natToLE]
    exact Nat.mod_eq_of_lt (lt_of_lt_of_le hpt (by norm_num))
  have hdec := decrypt_iv_ct P kp iv ct hiv hct hmul hk
  unfold DecryptOPData01
  rw [hauth, GoResult.bind_ok]
  rw [if_neg (by simp [OPData01Magic, hle, hiv])]
  rw [if_neg (by simp [OPData01Magic, hle, hiv])]
  rw [if_neg (by simp [List.take_left])]
  simp only [List.drop_left]
  rw [if_neg (by simp [hle, hiv])]
  rw [if_neg (by simp [hle, hiv])]
  simp only [hptv, List.drop_left' hle]
  rw [hdec, GoResult.bind_ok]
  unfold goSlice
  rw [if_pos (by refine ⟨?_, le_refl _⟩; rw [haes]; simp [aesBlockSize]; omega)]
  rw [drop_take_full]
  simp [aesBlockSize]


/-! ### Header parsing of `DecryptOPData01` after a successful MAC check -/

lemma DecryptOPData01_header_cases (P : Prims) (kp : KeyPair)
    (data tag : List Nat)
    (htag : tag.length = 32) (heq : tag = P.hmacSHA256 kp.MACKey data) :
    (data.length = 0 → DecryptOPData01 P (data ++ tag) kp = .err .ioEOF)
    ∧ (0 < data.length → data.length < 8 →
        DecryptOPData01 P (data ++ tag) kp = .err .incompleteMagic)
    ∧ (8 ≤ data.length → data.take 8 ≠ OPData01Magic →
        DecryptOPData01 P (data ++ tag) kp = .err .invalidMagic) := by
  have hauth := authenticate_tag_ok P kp data tag htag heq
  have hm : OPData01Magic.length = 8 := rfl
  refine ⟨fun h => ?_, fun h h' => ?_, fun h hne => ?_⟩
  · unfold DecryptOPData01
    rw [hauth, GoResult.bind_ok, if_pos h]
  · unfold DecryptOPData01
    rw [hauth, GoResult.bind_ok, if_neg (by omega), hm, if_pos h']
  · unfold DecryptOPData01
    rw [hauth, GoResult.bind_ok, if_neg (by omega), hm,
      if_neg (by omega), if_pos hne]

/-! ### Full characterization of `DecryptItemKey` after a successful MAC
check, by the length of the authenticated remainder -/

lemma DecryptItemKey_cases (P : Prims) (kp : KeyPair) (data tag : List Nat)
    (htag : tag.length = 32) (heq : tag = P.hmacSHA256 kp.MACKey data)
    (hk : kp.EncKey.length = 32)
    (haes : ∀ iv ct, (P.aesCBCDec kp.EncKey iv ct).length = ct.length) :
    (data.length = 0 → DecryptItemKey P (data ++ tag) kp = .err .ioEOF)
    ∧ (0 < data.length → data.length < 16 →
        DecryptItemKey P (data ++ tag) kp = .err .incompleteIV)
    ∧ (16 ≤ data.length → data.length < 32 →
        DecryptItemKey P (data ++ tag) kp = .err .incompleteCiphertext)
    ∧ (32 ≤ data.length → (data.length - 16) % 16 ≠ 0 →
        DecryptItemKey P (data ++ tag) kp = .panicked)
    ∧ (32 ≤ data.length → (data.length - 16) % 16 = 0 → data.length < 80 →
        DecryptItemKey P (data ++ tag) kp = .panicked)
    ∧ (80 ≤ data.length → (data.length - 16) % 16 = 0 →
        DecryptItemKey P (data ++ tag) kp =
          .ok ⟨(P.aesCBCDec kp.EncKey (data.take 16) (data.drop 16)).take 32,
            ((P.aesCBCDec kp.EncKey (data.take 16) (data.drop 16)).drop 32).take 32⟩) := by
  have hauth := authenticate_tag_ok P kp data tag htag heq
  have hdc := decrypt_cases P data kp hk
  have hpl : (P.aesCBCDec kp.EncKey (data.take 16) (data.drop 16)).length
      = data.length - 16 := by
    rw [haes, List.length_drop]
  refine ⟨fun h => ?_, fun h h' => ?_, fun h h' => ?_, fun h h' => ?_,
    fun h h' h'' => ?_, fun h h' => ?_⟩
  · unfold DecryptItemKey
    rw [hauth, GoResult.bind_ok, hdc.1 h]
    rfl
  · unfold DecryptItemKey
    rw [hauth, GoResult.bind_ok, hdc.2.1 h h']
    rfl
  · unfold DecryptItemKey
    rw [hauth, GoResult.bind_ok, hdc.2.2.1 h h']
    rfl
  · unfold DecryptItemKey
    rw [hauth, GoResult.bind_ok, hdc.2.2.2.1 h h']
    rfl
  · unfold DecryptItemKey
    rw [hauth, GoResult.bind_ok, hdc.2.2.2.2 h h', GoResult.bind_ok]
    by_cases h32 : 32 ≤ (P.aesCBCDec kp.EncKey (data.take 16) (data.drop 16)).length
    · rw [show EncKeySize + MACKeySize = 64 from rfl, show EncKeySize = 32 from rfl]
      unfold goSlice
      rw [if_pos ⟨by omega, h32⟩, GoResult.bind_ok, if_neg (by omega)]
      rfl
    · rw [show EncKeySize = 32 from rfl]
      unfold goSlice
      rw [if_neg (by omega)]
      rfl
  · unfold DecryptItemKey
    rw [hauth, GoResult.bind_ok, hdc.2.2.2.2 (by omega) h', GoResult.bind_ok,
      show EncKeySize + MACKeySize = 64 from rfl, show EncKeySize = 32 from rfl]
    unfold goSlice
    rw [if_pos ⟨by omega, by omega⟩, GoResult.bind_ok, if_pos ⟨by omega, by omega⟩,
      GoResult.bind_ok, List.drop_zero]

/-! ### The error kinds each operation can produce -/

lemma GoResult.bind_err {α β : Type} (e : GoErr) (f : α → GoResult β) :
    GoResult.bind (.err e) f = .err e := rfl

lemma GoResult.bind_panicked {α β : Type} (f : α → GoResult β) :
    GoResult.bind .panicked f = .panicked := rfl

lemma bind_not_header {α β : Type} (x : GoResult α) (f : α → GoResult β)
    (hx : x ≠ .err .incompleteHeader)
    (hf : ∀ v, f v ≠ .err .incompleteHeader) :
    x.bind f ≠ .err .incompleteHeader := by
  cases x with
  | ok v => rw [GoResult.bind_ok]; exact hf v
  | err e =>
    rw [GoResult.bind_err]
    intro hcontra
    exact hx (by rw [GoResult.err.inj hcontra])
  | panicked => rw [GoResult.bind_panicked]; simp

lemma goSlice_not_header (l : List Nat) (i j : Nat) :
    goSlice l i j ≠ .err .incompleteHeader := by
  unfold goSlice
  split_ifs <;> simp

lemma authenticate_not_header (P : Prims) (blob : List Nat) (kp : KeyPair) :
    authenticate P blob kp ≠ .err .incompleteHeader := by
  simp only [authenticate]
  split_ifs <;> simp

lemma decrypt_not_header (P : Prims) (blob : List Nat) (kp : KeyPair) :
    decrypt P blob kp ≠ .err .incompleteHeader := by
  simp only [decrypt]
  split_ifs <;> simp

lemma DecryptOPData01_not_header (P : Prims) (opdata : List Nat)
    (kp : KeyPair) :
    DecryptOPData01 P opdata kp ≠ .err .incompleteHeader := by
  simp only [DecryptOPData01]
  refine bind_not_header _ _ (authenticate_not_header P opdata kp) fun data => ?_
  split_ifs <;>
    first
      | exact bind_not_header _ _ (decrypt_not_header P _ kp)
          fun pt => goSlice_not_header _ _ _
      | simp

lemma ComputeDerivedKeys_not_header (P : Prims) (pass salt : List Nat)
    (nIters : Int) :
    ComputeDerivedKeys P pass salt nIters ≠ .err .incompleteHeader := by
  simp only [ComputeDerivedKeys]
  refine bind_not_header _ _ (goSlice_not_header _ _ _) fun e => ?_
  refine bind_not_header _ _ (goSlice_not_header _ _ _) fun m => ?_
  simp

lemma DecryptMasterKeys_not_header (P : Prims) (opdata : List Nat)
    (dk : KeyPair) :
    DecryptMasterKeys P opdata dk ≠ .err .incompleteHeader := by
  simp only [DecryptMasterKeys]
  refine bind_not_header _ _ (DecryptOPData01_not_header P opdata dk) fun mk => ?_
  simp

lemma DecryptItemKey_not_header (P : Prims) (itemKey : List Nat)
    (kp : KeyPair) :
    DecryptItemKey P itemKey kp ≠ .err .incompleteHeader := by
  simp only [DecryptItemKey]
  refine bind_not_header _ _ (authenticate_not_header P itemKey kp) fun data => ?_
  refine bind_not_header _ _ (decrypt_not_header P data kp) fun pt => ?_
  refine bind_not_header _ _ (goSlice_not_header _ _ _) fun e => ?_
  refine bind_not_header _ _ (goSlice_not_header _ _ _) fun m => ?_
  simp

/-! ### `ComputeDerivedKeys` never fails -/

lemma ComputeDerivedKeys_eq (P : Prims) (pass salt : List Nat) (nIters : Int)
    (h64 : (P.pbkdf2SHA512 pass salt nIters).length = 64) :
    ComputeDerivedKeys P pass salt nIters
      = .ok ⟨(P.pbkdf2SHA512 pass salt nIters).take 32,
          ((P.pbkdf2SHA512 pass salt nIters).drop 32).take 32⟩ := by
  simp only [ComputeDerivedKeys, goSlice, h64]
  rw [if_pos (by omega), GoResult.bind_ok, if_pos (by omega), GoResult.bind_ok,
    List.drop_zero]

/-! ### Key sizes on the success paths -/

lemma DecryptMasterKeys_ok_shape (P : Prims) (opdata : List Nat)
    (dk : KeyPair) (hs : ∀ d, (P.sha512 d).length = 64) (out : KeyPair) :
    DecryptMasterKeys P opdata dk = .ok out →
    out.EncKey.length = 32 ∧ out.MACKey.length = 32 := by
  simp only [DecryptMasterKeys]
  cases DecryptOPData01 P opdata dk with
  | ok mk =>
    simp only [GoResult.bind_ok]
    intro h
    have h' := GoResult.ok.inj h
    rw [← h']
    simp [List.length_take, List.length_drop, hs]
  | err e => simp [GoResult.bind_err]
  | panicked => simp [GoResult.bind_panicked]

lemma DecryptItemKey_ok_shape (P : Prims) (itemKey : List Nat) (kp : KeyPair)
    (out : KeyPair) :
    DecryptItemKey P itemKey kp = .ok out →
    out.EncKey.length = 32 ∧ out.MACKey.length = 32 := by
  simp only [DecryptItemKey]
  cases authenticate P itemKey kp with
  | ok data =>
    simp only [GoResult.bind_ok]
    cases decrypt P data kp with
    | ok pt =>
      simp only [GoResult.bind_ok, goSlice]
      split_ifs with h1 h2
      · simp only [GoResult.bind_ok]
        intro h
        have h' := GoResult.ok.inj h
        rw [← h']
        refine ⟨?_, ?_⟩
        · simp only [List.length_take, List.length_drop, List.drop_zero]
          simp only [EncKeySize] at h1 ⊢
          omega
        · simp only [List.length_take, List.length_drop]
          simp only [EncKeySize, MACKeySize] at h1 h2 ⊢
          omega
      all_goals simp [GoResult.bind_ok, GoResult.bind_panicked]
    | err e => simp [GoResult.bind_err]
    | panicked => simp [GoResult.bind_panicked]
  | err e => simp [GoResult.bind_err]
  | panicked => simp [GoResult.bind_panicked]

/-! ## The claims -/

/-- C1: for every KeyPair with a 32-byte EncKey and every well-formed
OPData01 container — tag equal to the HMAC-SHA-256 of all preceding bytes,
payload `opdata01 ∥ ptLen(8,LE) ∥ iv(16) ∥ ciphertext(ptLen + padLen)` with
`padLen = 16 - ptLen % 16` — `DecryptOPData01` succeeds and returns the
CBC-decrypted plaintext with its first `padLen` bytes dropped, of length
exactly `ptLen`; when `ptLen` is a multiple of 16, `padLen = 16`. -/
theorem c1_opdata01_decode (P : Prims) (kp : KeyPair) (ptLen : Nat)
    (iv ct tag : List Nat)
    (hk : kp.EncKey.length = 32) (hpt : ptLen < 2 ^ 64)
    (hiv : iv.length = 16)
    (hct : ct.length = ptLen + (16 - ptLen % 16))
    (haes : (P.aesCBCDec kp.EncKey iv ct).length = ct.length)
    (htag : tag.length = 32)
    (heq : tag = P.hmacSHA256 kp.MACKey
      (OPData01Magic ++ (natToLE 8 ptLen ++ (iv ++ ct)))) :
    DecryptOPData01 P
        ((OPData01Magic ++ (natToLE 8 ptLen ++ (iv ++ ct))) ++ tag) kp
      = .ok ((P.aesCBCDec kp.EncKey iv ct).drop (16 - ptLen % 16))
    ∧ ((P.aesCBCDec kp.EncKey iv ct).drop (16 - ptLen % 16)).length = ptLen
    ∧ (ptLen % 16 = 0 → 16 - ptLen % 16 = 16) := by
  have hm16 : ptLen % 16 < 16 := Nat.mod_lt _ (by norm_num)
  have hmod : ptLen % 16 ≤ ptLen := Nat.mod_le _ _
  refine ⟨DecryptOPData01_ok P kp ptLen iv ct tag hpt hiv (by omega)
    (by omega) hk haes htag heq, ?_, by omega⟩
  rw [List.length_drop, haes]
  omega

/-- Witness for C1 at `ptLen = 5` with a 16-byte ciphertext: the container
decodes to the 5 plaintext bytes that follow the 11 bytes of front
padding. -/
theorem c1_opdata01_decode_witness :
    DecryptOPData01 testPrims
        ((OPData01Magic ++ (natToLE 8 5 ++
          (List.replicate 16 0 ++ List.replicate 16 0)))
          ++ List.replicate 32 0) kp0
      = .ok (List.replicate 5 0) := by
  have h := c1_opdata01_decode testPrims kp0 5
    (List.replicate 16 0) (List.replicate 16 0) (List.replicate 32 0)
    (by decide) (by norm_num) (by decide) (by decide) (by decide)
    (by decide) (by decide)
  rw [h.1]
  decide

/-- C2 counterexample: `decrypt` on the empty input fails with the foreign
`io.EOF` error, not `ErrIncompleteIV`, and on a 33-byte input (16-byte IV
plus 17 ciphertext bytes, a non-multiple of the block size) it panics in
`CryptBlocks` instead of failing with `ErrIncompleteCiphertext`. -/
theorem c2_decrypt_framing_counterexample :
    decrypt testPrims [] kp0 = .err .ioEOF
    ∧ decrypt testPrims [] kp0 ≠ .err .incompleteIV
    ∧ decrypt testPrims (List.replicate 33 0) kp0 = .panicked
    ∧ decrypt testPrims (List.replicate 33 0) kp0 ≠ .err .incompleteCiphertext := by
  refine ⟨by decide, by decide, by decide, by decide⟩

/-- C2 as amended: for a KeyPair with a 32-byte EncKey, `decrypt` fails
with `io.EOF` on an empty input, with `ErrIncompleteIV` on 1–15 bytes,
with `ErrIncompleteCiphertext` when the remainder after the IV is shorter
than one block, and panics when the remainder is at least one block but
not a multiple of the block size. -/
theorem c2_decrypt_framing (P : Prims) (blob : List Nat) (kp : KeyPair)
    (hk : kp.EncKey.length = 32) :
    (blob.length = 0 → decrypt P blob kp = .err .ioEOF)
    ∧ (0 < blob.length → blob.length < 16 →
        decrypt P blob kp = .err .incompleteIV)
    ∧ (16 ≤ blob.length → blob.length - 16 < 16 →
        decrypt P blob kp = .err .incompleteCiphertext)
    ∧ (16 ≤ blob.length → 16 ≤ blob.length - 16 → (blob.length - 16) % 16 ≠ 0 →
        decrypt P blob kp = .panicked) := by
  have h := decrypt_cases P blob kp hk
  exact ⟨h.1, h.2.1, fun h1 h2 => h.2.2.1 h1 (by omega),
    fun h1 h2 h3 => h.2.2.2.1 (by omega) h3⟩

/-- Witness for C2 as amended, at an 8-byte input: `ErrIncompleteIV`. -/
theorem c2_decrypt_framing_witness :
    decrypt testPrims (List.replicate 8 0) kp0 = .err .incompleteIV :=
  (c2_decrypt_framing testPrims (List.replicate 8 0) kp0 (by decide)).2.1
    (by decide) (by decide)

/-- C4: `authenticate` fails with `ErrIncompleteMAC` on inputs shorter
than 32 bytes; otherwise, it fails with `ErrIncorrectMAC` when the
HMAC-SHA-256 of the first `len - 32` bytes differs from the last 32
bytes, and returns exactly the first `len - 32` bytes on a match. -/
theorem c4_authenticate_contract (P : Prims) (blob : List Nat)
    (kp : KeyPair) :
    (blob.length < 32 → authenticate P blob kp = .err .incompleteMAC)
    ∧ (32 ≤ blob.length →
        P.hmacSHA256 kp.MACKey (blob.take (blob.length - 32)) ≠
          blob.drop (blob.length - 32) →
        authenticate P blob kp = .err .incorrectMAC)
    ∧ (32 ≤ blob.length →
        P.hmacSHA256 kp.MACKey (blob.take (blob.length - 32)) =
          blob.drop (blob.length - 32) →
        authenticate P blob kp = .ok (blob.take (blob.length - 32))) := by
  have h := authenticate_cases P blob kp
  exact ⟨h.1, fun h1 h2 => h.2.1 h1 (fun he => h2 he.symm),
    fun h1 h2 => h.2.2 h1 h2.symm⟩

/-- Witness for C4 at a 32-byte input that is exactly the tag over the
empty prefix: `authenticate` returns the empty verified payload. -/
theorem c4_authenticate_contract_witness :
    authenticate testPrims (List.replicate 32 0) kp0 = .ok [] := by
  have h := (c4_authenticate_contract testPrims (List.replicate 32 0) kp0).2.2
    (by decide) (by decide)
  rw [h]
  decide

/-- C3 counterexample: two malformed Fixed Item-Key Blobs on which
`DecryptItemKey` does not fail with any Authenticator or Decryptor error:
a tag-valid blob whose authenticated remainder is 96 bytes (not 80)
decodes successfully to a KeyPair, and a tag-valid blob whose remainder is
48 bytes panics (slice out of range on the 32-byte plaintext). -/
theorem c3_itemkey_malformed_counterexample :
    DecryptItemKey testPrims (List.replicate 128 0) kp0 = .ok kp0
    ∧ DecryptItemKey testPrims (List.replicate 80 0) kp0 = .panicked := by
  refine ⟨by decide, by decide⟩

/-- C3 as amended: `DecryptItemKey` fails with `ErrIncompleteMAC` on blobs
shorter than 32 bytes and with `ErrIncorrectMAC` on a tag mismatch, but
for tag-valid blobs only remainder lengths 1–15 (`ErrIncompleteIV`) and
16–31 (`ErrIncompleteCiphertext`) produce Decryptor errors: an empty
remainder fails with the foreign `io.EOF`, a remainder of 32 or more
bytes whose ciphertext part is not block-aligned panics in `CryptBlocks`,
a block-aligned remainder of 32–79 bytes panics on the out-of-range key
split, and a block-aligned remainder of 80 or more bytes succeeds,
returning a KeyPair taken from the first 64 bytes of the decrypted
plaintext — no error at all. -/
theorem c3_itemkey_malformed (P : Prims) (kp : KeyPair) (blob : List Nat)
    (hk : kp.EncKey.length = 32)
    (haes : ∀ iv ct, (P.aesCBCDec kp.EncKey iv ct).length = ct.length) :
    (blob.length < 32 → DecryptItemKey P blob kp = .err .incompleteMAC)
    ∧ (32 ≤ blob.length →
        blob.drop (blob.length - 32) ≠
          P.hmacSHA256 kp.MACKey (blob.take (blob.length - 32)) →
        DecryptItemKey P blob kp = .err .incorrectMAC)
    ∧ ∀ data tag : List Nat, tag.length = 32 →
        tag = P.hmacSHA256 kp.MACKey data →
        ((data.length = 0 → DecryptItemKey P (data ++ tag) kp = .err .ioEOF)
        ∧ (0 < data.length → data.length < 16 →
            DecryptItemKey P (data ++ tag) kp = .err .incompleteIV)
        ∧ (16 ≤ data.length → data.length < 32 →
            DecryptItemKey P (data ++ tag) kp = .err .incompleteCiphertext)
        ∧ (32 ≤ data.length → (data.length - 16) % 16 ≠ 0 →
            DecryptItemKey P (data ++ tag) kp = .panicked)
        ∧ (32 ≤ data.length → (data.length - 16) % 16 = 0 →
            data.length < 80 →
            DecryptItemKey P (data ++ tag) kp = .panicked)
        ∧ (80 ≤ data.length → (data.length - 16) % 16 = 0 →
            DecryptItemKey P (data ++ tag) kp =
              .ok ⟨(P.aesCBCDec kp.EncKey (data.take 16) (data.drop 16)).take 32,
                ((P.aesCBCDec kp.EncKey (data.take 16) (data.drop 16)).drop 32).take 32⟩)) := by
  have hA := authenticate_cases P blob kp
  refine ⟨fun h => ?_, fun h hne => ?_,
    fun data tag htag heq => DecryptItemKey_cases P kp data tag htag heq hk haes⟩
  · simp only [DecryptItemKey]
    rw [hA.1 h, GoResult.bind_err]
  · simp only [DecryptItemKey]
    rw [hA.2.1 h hne, GoResult.bind_err]

/-- Witness for C3 as amended: a tag-valid blob with a 48-byte remainder
(16-byte IV plus 32 ciphertext bytes) makes `DecryptItemKey` panic. -/
theorem c3_itemkey_malformed_witness :
    DecryptItemKey testPrims (List.replicate 48 0 ++ List.replicate 32 0) kp0
      = .panicked := by
  have h := (c3_itemkey_malformed testPrims kp0
    (List.replicate 48 0 ++ List.replicate 32 0) (by decide)
    (fun iv ct => rfl)).2.2
    (List.replicate 48 0) (List.replicate 32 0) (by decide) (by decide)
  exact h.2.2.2.2.1 (by decide) (by decide) (by decide)

/-- C5: a well-formed 112-byte Fixed Item-Key Blob — 16-byte IV, 64-byte
ciphertext, matching 32-byte tag — decodes under the master KeyPair to the
KeyPair whose EncKey is the first 32 and MACKey the last 32 bytes of the
CBC-decrypted 64-byte plaintext, with no hashing applied. -/
theorem c5_itemkey_wellformed (P : Prims) (kp : KeyPair)
    (iv ct tag : List Nat)
    (hk : kp.EncKey.length = 32)
    (haes : ∀ v c, (P.aesCBCDec kp.EncKey v c).length = c.length)
    (hiv : iv.length = 16) (hct : ct.length = 64) (htag : tag.length = 32)
    (heq : tag = P.hmacSHA256 kp.MACKey (iv ++ ct)) :
    DecryptItemKey P ((iv ++ ct) ++ tag) kp
      = .ok ⟨(P.aesCBCDec kp.EncKey iv ct).take 32,
          ((P.aesCBCDec kp.EncKey iv ct).drop 32).take 32⟩ := by
  have h := (DecryptItemKey_cases P kp (iv ++ ct) tag htag heq hk haes).2.2.2.2.2
    (by simp [hiv, hct]) (by simp [hiv, hct])
  rw [List.take_left' hiv, List.drop_left' hiv] at h
  exact h

/-- Witness for C5 on the all-zero well-formed blob: the item KeyPair is
the 32/32 split of the 64-byte plaintext. -/
theorem c5_itemkey_wellformed_witness :
    DecryptItemKey testPrims
      ((List.replicate 16 0 ++ List.replicate 64 0) ++ List.replicate 32 0) kp0
      = .ok kp0 := by
  have h := c5_itemkey_wellformed testPrims kp0
    (List.replicate 16 0) (List.replicate 64 0) (List.replicate 32 0)
    (by decide) (fun v c => rfl) (by decide) (by decide) (by decide)
    (by decide)
  rw [h]
  decide

/-- C6 counterexample: a 32-byte container consisting of nothing but a
valid tag over the empty payload fails with the foreign `io.EOF` error
from `bytes.Buffer.Read`, not with `ErrIncompleteMagic`. -/
theorem c6_magic_parsing_counterexample :
    DecryptOPData01 testPrims (List.replicate 32 0) kp0 = .err .ioEOF
    ∧ DecryptOPData01 testPrims (List.replicate 32 0) kp0
        ≠ .err .incompleteMagic := by
  refine ⟨by decide, by decide⟩

/-- C6 as amended: after a successful MAC check, an empty verified payload
fails with the foreign `io.EOF`, a payload of 1–7 bytes fails with
`ErrIncompleteMagic`, and a payload of at least 8 bytes whose first 8
bytes differ from the ASCII literal `opdata01` fails with
`ErrInvalidMagic`. -/
theorem c6_magic_parsing (P : Prims) (kp : KeyPair) (data tag : List Nat)
    (htag : tag.length = 32) (heq : tag = P.hmacSHA256 kp.MACKey data) :
    (data.length = 0 → DecryptOPData01 P (data ++ tag) kp = .err .ioEOF)
    ∧ (0 < data.length → data.length < 8 →
        DecryptOPData01 P (data ++ tag) kp = .err .incompleteMagic)
    ∧ (8 ≤ data.length → data.take 8 ≠ OPData01Magic →
        DecryptOPData01 P (data ++ tag) kp = .err .invalidMagic) :=
  DecryptOPData01_header_cases P kp data tag htag heq

/-- Witness for C6 as amended: a 1-byte payload yields
`ErrIncompleteMagic` and an 8-byte all-zero payload yields
`ErrInvalidMagic`. -/
theorem c6_magic_parsing_witness :
    DecryptOPData01 testPrims ([0] ++ List.replicate 32 0) kp0
      = .err .incompleteMagic
    ∧ DecryptOPData01 testPrims
        (List.replicate 8 0 ++ List.replicate 32 0) kp0
      = .err .invalidMagic := by
  refine ⟨(c6_magic_parsing testPrims kp0 [0] (List.replicate 32 0)
      (by decide) (by decide)).2.1 (by decide) (by decide),
    (c6_magic_parsing testPrims kp0 (List.replicate 8 0)
      (List.replicate 32 0) (by decide) (by decide)).2.2
      (by decide) (by decide)⟩

/-- C7 counterexample: `ComputeDerivedKeys` does not reject a zero or
negative iteration count — at `nIters = 0` and `nIters = -1` it still
produces a KeyPair (the Go function has no error return, and
`pbkdf2.Key` simply runs its iteration loop zero extra times). -/
theorem c7_iteration_count_counterexample :
    ComputeDerivedKeys testPrims [] [] 0 = .ok kp0
    ∧ ComputeDerivedKeys testPrims [] [] (-1) = .ok kp0 := by
  refine ⟨by decide, by decide⟩

/-- C7 as amended: for every iteration count, including zero and negative
ones, `ComputeDerivedKeys` succeeds and deterministically returns the
64-byte PBKDF2-HMAC-SHA-512 output split into `EncKey = bytes[0:32]` and
`MACKey = bytes[32:64]`; no rejection of `nIters ≤ 0` is performed. -/
theorem c7_derive_keys_total (P : Prims) (pass salt : List Nat)
    (nIters : Int)
    (h64 : (P.pbkdf2SHA512 pass salt nIters).length = 64) :
    ComputeDerivedKeys P pass salt nIters
      = .ok ⟨(P.pbkdf2SHA512 pass salt nIters).take 32,
          ((P.pbkdf2SHA512 pass salt nIters).drop 32).take 32⟩ :=
  ComputeDerivedKeys_eq P pass salt nIters h64

/-- Witness for C7 as amended at a positive iteration count. -/
theorem c7_derive_keys_total_witness :
    ComputeDerivedKeys testPrims [] [] 1 = .ok kp0 := by
  have h := c7_derive_keys_total testPrims [] [] 1 (by decide)
  rw [h]
  decide

/-- C8: every KeyPair returned on success by `ComputeDerivedKeys`,
`DecryptMasterKeys` or `DecryptItemKey` has a 32-byte EncKey and a
32-byte MACKey. -/
theorem c8_keypair_sizes (P : Prims) (pass salt : List Nat) (nIters : Int)
    (opdata itemKey : List Nat) (dk kp : KeyPair)
    (hp : (P.pbkdf2SHA512 pass salt nIters).length = 64)
    (hs : ∀ d, (P.sha512 d).length = 64) :
    (∀ out, ComputeDerivedKeys P pass salt nIters = .ok out →
        out.EncKey.length = 32 ∧ out.MACKey.length = 32)
    ∧ (∀ out, DecryptMasterKeys P opdata dk = .ok out →
        out.EncKey.length = 32 ∧ out.MACKey.length = 32)
    ∧ (∀ out, DecryptItemKey P itemKey kp = .ok out →
        out.EncKey.length = 32 ∧ out.MACKey.length = 32) := by
  refine ⟨fun out hout => ?_,
    fun out hout => DecryptMasterKeys_ok_shape P opdata dk hs out hout,
    fun out hout => DecryptItemKey_ok_shape P itemKey kp out hout⟩
  rw [ComputeDerivedKeys_eq P pass salt nIters hp] at hout
  have h' := GoResult.ok.inj hout
  rw [← h']
  constructor <;> simp [List.length_take, List.length_drop, hp]

/-- Witness for C8: the KeyPair produced by `ComputeDerivedKeys` on
concrete inputs has two 32-byte keys. -/
theorem c8_keypair_sizes_witness :
    kp0.EncKey.length = 32 ∧ kp0.MACKey.length = 32 :=
  (c8_keypair_sizes testPrims [] [] 1 [] [] kp0 kp0 rfl
    (fun d => rfl)).1 kp0 (by decide)

/-- C9: when authentication, magic parsing and decryption succeed, the
result of `DecryptOPData01` is the decrypted buffer with its first
`16 - ptLen % 16` bytes dropped, of length
`len(ciphertext) - (16 - ptLen % 16)`; the declared `ptLen` matters only
through `ptLen % 16`, and nothing ties `len(ciphertext)` to `ptLen` — a
container whose ciphertext length is not `ptLen + padLen` still decodes
without error. -/
theorem c9_opdata01_result_length (P : Prims) (kp : KeyPair) (ptLen : Nat)
    (iv ct : List Nat)
    (hk : kp.EncKey.length = 32)
    (hh : ∀ k d, (P.hmacSHA256 k d).length = 32)
    (haes : ∀ k v c, (P.aesCBCDec k v c).length = c.length)
    (hpt : ptLen < 2 ^ 64) (hiv : iv.length = 16)
    (hct : 16 ≤ ct.length) (hmul : ct.length % 16 = 0) :
    DecryptOPData01 P ((OPData01Magic ++ (natToLE 8 ptLen ++ (iv ++ ct)))
        ++ P.hmacSHA256 kp.MACKey
          (OPData01Magic ++ (natToLE 8 ptLen ++ (iv ++ ct)))) kp
      = .ok ((P.aesCBCDec kp.EncKey iv ct).drop (16 - ptLen % 16))
    ∧ ((P.aesCBCDec kp.EncKey iv ct).drop (16 - ptLen % 16)).length
        = ct.length - (16 - ptLen % 16)
    ∧ ∀ ptLen2, ptLen2 < 2 ^ 64 → ptLen2 % 16 = ptLen % 16 →
        DecryptOPData01 P ((OPData01Magic ++ (natToLE 8 ptLen2 ++ (iv ++ ct)))
            ++ P.hmacSHA256 kp.MACKey
              (OPData01Magic ++ (natToLE 8 ptLen2 ++ (iv ++ ct)))) kp
          = DecryptOPData01 P ((OPData01Magic ++ (natToLE 8 ptLen ++ (iv ++ ct)))
              ++ P.hmacSHA256 kp.MACKey
                (OPData01Magic ++ (natToLE 8 ptLen ++ (iv ++ ct)))) kp := by
  have h1 := DecryptOPData01_ok P kp ptLen iv ct _ hpt hiv hct hmul hk
    (haes _ _ _) (hh _ _) rfl
  refine ⟨h1, ?_, fun ptLen2 hpt2 hmod => ?_⟩
  · rw [List.length_drop, haes]
  · have h2 := DecryptOPData01_ok P kp ptLen2 iv ct _ hpt2 hiv hct hmul hk
      (haes _ _ _) (hh _ _) rfl
    rw [h1, h2, hmod]

/-- Witness for C9: a container declaring `ptLen = 5` but carrying 32
ciphertext bytes (instead of `5 + 11 = 16`) still decodes without error,
to 21 bytes rather than the declared 5. -/
theorem c9_opdata01_result_length_witness :
    DecryptOPData01 testPrims
      ((OPData01Magic ++ (natToLE 8 5 ++
        (List.replicate 16 0 ++ List.replicate 32 0)))
        ++ testPrims.hmacSHA256 kp0.MACKey
          (OPData01Magic ++ (natToLE 8 5 ++
            (List.replicate 16 0 ++ List.replicate 32 0)))) kp0
      = .ok (List.replicate 21 0)
    ∧ (List.replicate 21 (0 : Nat)).length = 32 - (16 - 5 % 16)
    ∧ (List.replicate 21 (0 : Nat)).length ≠ 5 := by
  have h := c9_opdata01_result_length testPrims kp0 5
    (List.replicate 16 0) (List.replicate 32 0) (by decide)
    (fun k d => rfl) (fun k v c => rfl) (by norm_num) (by decide)
    (by decide) (by decide)
  refine ⟨?_, by decide, by decide⟩
  rw [h.1]
  decide

/-- C10: no operation of the core ever returns `ErrIncompleteHeader`:
the error kind is declared in `crypto.go` but produced by no parsing
path. -/
theorem c10_no_incomplete_header (P : Prims) (pass salt : List Nat)
    (nIters : Int) (blob opdata itemKey : List Nat) (kp dk : KeyPair) :
    ComputeDerivedKeys P pass salt nIters ≠ .err .incompleteHeader
    ∧ DecryptMasterKeys P opdata dk ≠ .err .incompleteHeader
    ∧ DecryptOPData01 P opdata kp ≠ .err .incompleteHeader
    ∧ DecryptItemKey P itemKey kp ≠ .err .incompleteHeader
    ∧ authenticate P blob kp ≠ .err .incompleteHeader
    ∧ decrypt P blob kp ≠ .err .incompleteHeader :=
  ⟨ComputeDerivedKeys_not_header P pass salt nIters,
    DecryptMasterKeys_not_header P opdata dk,
    DecryptOPData01_not_header P opdata kp,
    DecryptItemKey_not_header P itemKey kp,
    authenticate_not_header P blob kp,
    decrypt_not_header P blob kp⟩

end OnePassword
